import Mathlib

/-!
# Verification of `drivers/thermal/qcom/msm_thermal_simple.c`

A shallow embedding of the msm_thermal_simple thermal-throttling driver:
the periodic worker (`thermal_throttle_worker`), the cpufreq policy
notifier (`cpu_notifier_cb` with `get_throttle_freq`), and the sysfs
toggle (`throttle_enabled_store`).

Modelling conventions:
* `u32` fields become `Nat`, `s32`/`int`/`s64` fields become `Int`
  (the quantities involved — temperatures in degrees, frequencies in
  kHz, window sums of ten samples — are far below any relevant
  integer-width bound, so wrap-around is not reachable and is not
  modelled).
* C integer division (`temp_sum / WINDOW`, `temp_sum / NR_CPUS`)
  truncates toward zero, which is `Int.tdiv`.
* The `struct thermal_zone *curr_zone` pointer is modelled as an
  `Option Nat` index into the `zones` array (the pointer is always
  either NULL or `zones + i`, so pointer equality coincides with
  index equality).
* Interaction with the outside world is made explicit: thermal-sensor
  reads enter the worker as `Option Int` values (`none` = the zone
  lookup `thermal_zone_get_zone_by_name` failed), and the effects
  `queue_delayed_work` / `update_online_cpu_policy` are reported in the
  `TickResult` record instead of being performed.
-/

/-- `#define WINDOW 10` (line 33). -/
def WINDOW : Nat := 10

/-- `#define CPUFREQ_ADJUST (0)` from `include/linux/cpufreq.h`. -/
def CPUFREQ_ADJUST : Nat := 0

/-- `#define NOTIFY_OK 0x0001` from `include/linux/notifier.h`. -/
def NOTIFY_OK : Nat := 1

/-- `#define EINVAL 22` from `include/uapi/asm-generic/errno-base.h`. -/
def EINVAL : Int := 22

/-- `struct thermal_zone` (lines 35-40): per-zone cluster frequency caps
and the trip temperature. -/
structure ThermalZone where
  gold_khz : Nat
  prime_khz : Nat
  silver_khz : Nat
  trip_deg : Int
  deriving DecidableEq, Repr

/-- The state-carrying fields of `struct thermal_drv` (lines 42-55).
Kernel handles (`cpu_notif`, `throttle_work`, `wq`) carry no model
state; `start_delay` and `nr_zones` are configuration (`nr_zones` is
`zones.length`). `temp_history` is the `int temp_history[WINDOW]`
array, a list of length `WINDOW`. -/
structure ThermalDrv where
  zone_name : Option String
  zones : List ThermalZone
  curr_zone : Option Nat
  poll_jiffies : Nat
  temp_history : List Int
  temp_index : Nat
  wait : Bool
  deriving DecidableEq, Repr

/-- The downward scan of lines 137-142 restricted to indices below the
fuel argument: `select_from zones temp n` inspects indices
`n-1, n-2, …, 0` in that order and returns the first index whose
`trip_deg` is `≤ temp`. -/
def select_from (zones : List ThermalZone) (temp : Int) : Nat → Option Nat
  | 0 => none
  | n + 1 =>
    match zones.get? n with
    | some z => if z.trip_deg ≤ temp then some n else select_from zones temp n
    | none => select_from zones temp n

/-- The zone-classification scan of lines 137-142:
`for (i = t->nr_zones - 1; i >= 0; i--) if (temp_final >= t->zones[i].trip_deg) …`.
Returns the index of the selected zone, or `none` when no zone trips. -/
def select_zone (zones : List ThermalZone) (temp : Int) : Option Nat :=
  select_from zones temp zones.length

/-- Order on classification results with `none` (no zone) treated as
strictly below every zone index. -/
def zone_le : Option Nat → Option Nat → Bool
  | none, _ => true
  | some _, none => false
  | some i, some j => i ≤ j

/-- Everything one call of `thermal_throttle_worker` (lines 76-152) does:
the driver state it leaves behind, the delay (in jiffies) passed to
`queue_delayed_work` if it was called (`none` = the worker returned
without rescheduling), whether `update_online_cpu_policy` was called,
and whether control reached the classification scan of lines 137-142. -/
structure TickResult where
  state : ThermalDrv
  rescheduled : Option Nat
  policy_updated : Bool
  classified : Bool
  deriving DecidableEq, Repr

/-- Lines 100-110: the averaging path visits the per-core zones
`cpu-1-0-usr … cpu-1-(NR_CPUS-1)-usr` in order, returning at the first
zone that fails to resolve; otherwise it accumulates `temp_sum`.
`coreReads i = none` models `thermal_zone_get_zone_by_name` failing for
core `i`; `some v` models a successful lookup whose
`thermal_zone_get_temp` stores `v`. -/
def read_core_sum (coreReads : Nat → Option Int) : Nat → Option Int
  | 0 => some 0
  | n + 1 =>
    match read_core_sum coreReads n with
    | none => none
    | some s =>
      match coreReads n with
      | none => none
      | some v => some (s + v)

/-- Lines 115-116: store the sample at the cursor and advance the cursor
modulo `WINDOW`. -/
def window_push (hist : List Int) (idx : Nat) (sample : Int) : List Int × Nat :=
  (hist.set idx sample, (idx + 1) % WINDOW)

/-- Lines 131-135: sum the whole history array and divide by `WINDOW`
(C `s64` division truncates toward zero). -/
def window_average (hist : List Int) : Int :=
  Int.tdiv (hist.foldl (fun a b => a + b) 0) (WINDOW : Int)

/-- `thermal_throttle_worker` (lines 76-152). `throttle_enabled` is the
global of line 57; `namedRead` is the sensor value on the named-zone
path (`none` = zone lookup failed); `coreReads`/`nr_cpus` feed the
averaging path. -/
def thermal_throttle_worker (throttle_enabled : Bool) (nr_cpus : Nat)
    (namedRead : Option Int) (coreReads : Nat → Option Int)
    (t : ThermalDrv) : TickResult :=
  if !throttle_enabled then ⟨t, none, false, false⟩
  else
    let tempRead : Option Int :=
      match t.zone_name with
      | some _ => namedRead
      | none => (read_core_sum coreReads nr_cpus).map
          (fun temp_sum => Int.tdiv temp_sum (nr_cpus : Int))
    match tempRead with
    | none => ⟨t, none, false, false⟩
    | some temp_final =>
      let p := window_push t.temp_history t.temp_index temp_final
      if t.wait && (p.2 != 0) then
        ⟨{ t with temp_history := p.1, temp_index := p.2 }, some t.poll_jiffies,
          false, false⟩
      else
        let avg := window_average p.1
        let new_zone := select_zone t.zones avg
        let t1 := { t with temp_history := p.1, temp_index := p.2, wait := false }
        if new_zone = t.curr_zone then
          ⟨t1, some t.poll_jiffies, false, true⟩
        else
          ⟨{ t1 with curr_zone := new_zone }, some t.poll_jiffies, true, true⟩

/-- `get_throttle_freq` (lines 154-162): silver cap for the low-power
cluster, gold for the performance cluster, prime otherwise. The cpumasks
are modelled as predicates on the cpu number. -/
def get_throttle_freq (zone : ThermalZone) (cpu : Nat)
    (cpu_lp_mask cpu_perf_mask : Nat → Bool) : Nat :=
  if cpu_lp_mask cpu then zone.silver_khz
  else if cpu_perf_mask cpu then zone.gold_khz
  else zone.prime_khz

/-- The fields of `struct cpufreq_policy` the driver touches:
`policy->cpu`, `policy->max`, `policy->min`, `policy->user_policy.max`. -/
structure CpufreqPolicy where
  cpu : Nat
  max : Nat
  min : Nat
  user_max : Nat
  deriving DecidableEq, Repr

/-- `cpu_notifier_cb` (lines 164-184). `curr_zone` is the dereferenced
`t->curr_zone` pointer (`none` = NULL). Returns the notifier return
value together with the policy as left behind. -/
def cpu_notifier_cb (throttle_enabled : Bool) (curr_zone : Option ThermalZone)
    (cpu_lp_mask cpu_perf_mask : Nat → Bool) (val : Nat)
    (policy : CpufreqPolicy) : Nat × CpufreqPolicy :=
  if val ≠ CPUFREQ_ADJUST then (NOTIFY_OK, policy)
  else
    let p1 :=
      match curr_zone with
      | some zone =>
        if throttle_enabled then
          { policy with
              max := get_throttle_freq zone policy.cpu cpu_lp_mask cpu_perf_mask }
        else { policy with max := policy.user_max }
      | none => { policy with max := policy.user_max }
    let p2 := if p1.max < p1.min then { p1 with min := p1.max } else p1
    (NOTIFY_OK, p2)

/-- Everything `throttle_enabled_store` (lines 257-275) leaves behind:
the global `throttle_enabled` after the write, the driver state, the
`queue_delayed_work` delay if it was called, and the `ssize_t` return
value. -/
structure StoreResult where
  throttle_enabled : Bool
  drv : ThermalDrv
  rescheduled : Option Nat
  ret : Int
  deriving DecidableEq, Repr

/-- `throttle_enabled_store` (lines 257-275). `throttle_enabled` is the
prior value of the global; `parsed` is the result of
`kstrtoint(buf, 10, &value)` (`none` = parse failure). The global
`thermal_drv_instance` is modelled as present (probe succeeded). -/
def throttle_enabled_store (throttle_enabled : Bool) (t : ThermalDrv)
    (parsed : Option Int) (count : Nat) : StoreResult :=
  match parsed with
  | none => ⟨throttle_enabled, t, none, -EINVAL⟩
  | some value =>
    let enabled := value != 0
    let reset := { t with temp_history := List.replicate WINDOW 0, temp_index := 0, wait := true }
    if enabled then
      ⟨enabled, reset, some t.poll_jiffies, (count : Int)⟩
    else
      ⟨enabled, t, none, (count : Int)⟩

/-- The 3-entry table of spec §8 with trips 40/55/70; the single spec cap
per entry (1000 / 700 / 400 kHz) is used for all three clusters. -/
def demoTable : List ThermalZone :=
  [⟨1000, 1000, 1000, 40⟩, ⟨700, 700, 700, 55⟩, ⟨400, 400, 400, 70⟩]

/-- The new `policy->max` computed by lines 174-178. -/
def cb_cap (en : Bool) (cz : Option ThermalZone) (lp perf : Nat → Bool)
    (policy : CpufreqPolicy) : Nat :=
  match cz with
  | some z => if en then get_throttle_freq z policy.cpu lp perf else policy.user_max
  | none => policy.user_max

/-- Writing the new max and then clamping the min (lines 180-181). -/
def cb_apply (policy : CpufreqPolicy) (m : Nat) : CpufreqPolicy :=
  if m < policy.min then { policy with max := m, min := m }
  else { policy with max := m }

/-- Pushing a list of samples through the window, one `window_push`
(lines 115-116) per sample. -/
def window_push_all (hist : List Int) (idx : Nat) : List Int → List Int × Nat
  | [] => (hist, idx)
  | v :: vs => window_push_all (window_push hist idx v).1 (window_push hist idx v).2 vs

/-- Modelled from the spec (§4.1, §8): the window contents after a
sequence of pushes — the last `WINDOW` effective values, zero-padded
while fewer than `WINDOW` samples have been pushed. Used only to state
the refinement claim about `window_average`. -/
def spec_window (ss : List Int) : List Int :=
  if ss.length ≤ WINDOW then ss ++ List.replicate (WINDOW - ss.length) 0
  else ss.drop (ss.length - WINDOW)

/-- Modelled from the spec (§4.1): truncating integer mean over all
`WINDOW` slots of the spec-side window. -/
def spec_average (ss : List Int) : Int :=
  Int.tdiv (spec_window ss).sum (WINDOW : Int)

/-- The value slot `i` of the history array holds after pushing `ss`
from the reset state: the last element of `ss` written at index `i`
(positions congruent to `i` mod 10), or the initial 0 if none. -/
def slotVal (ss : List Int) (i : Nat) : Int :=
  if i < ss.length then ss.getD (i + 10 * ((ss.length - 1 - i) / 10)) 0 else 0

/-- The full history array after pushing `ss` from the reset state. -/
def histList (ss : List Int) : List Int :=
  (List.range 10).map (slotVal ss)

/-- One tick of the worker on the named-zone path with a successful
reading `v` (the averaging-path arguments are irrelevant here). -/
def tick_named (v : Int) (t : ThermalDrv) : TickResult :=
  thermal_throttle_worker true 1 (some v) (fun _ => some 0) t

/-- Iterated ticks feeding successive successful readings. -/
def run_ticks (t : ThermalDrv) : List Int → ThermalDrv
  | [] => t
  | v :: vs => run_ticks (tick_named v t).state vs

theorem select_from_some {zones : List ThermalZone} {temp : Int} :
    ∀ {n i : Nat}, select_from zones temp n = some i →
      i < n ∧ ∃ z, zones.get? i = some z ∧ z.trip_deg ≤ temp := by
  intro n
  induction n with
  | zero => intro i h; simp [select_from] at h
  | succ n ih =>
    intro i h
    cases hz : zones.get? n with
    | some z =>
      simp only [select_from, hz] at h
      by_cases hle : z.trip_deg ≤ temp
      · rw [if_pos hle] at h
        cases h
        exact ⟨Nat.lt_succ_self n, z, hz, hle⟩
      · rw [if_neg hle] at h
        obtain ⟨hlt, hw⟩ := ih h
        exact ⟨Nat.lt_succ_of_lt hlt, hw⟩
    | none =>
      simp only [select_from, hz] at h
      obtain ⟨hlt, hw⟩ := ih h
      exact ⟨Nat.lt_succ_of_lt hlt, hw⟩

theorem select_from_above {zones : List ThermalZone} {temp : Int} :
    ∀ {n : Nat}, ∀ {r : Option Nat}, select_from zones temp n = r →
      ∀ j, j < n → (zone_le (some j) r = false) →
        ∀ z, zones.get? j = some z → temp < z.trip_deg := by
  intro n
  induction n with
  | zero => intro r _ j hj; omega
  | succ n ih =>
    intro r hr j hj hgt z hz
    rcases Nat.lt_or_ge j n with hjn | hjn
    · cases hz' : zones.get? n with
      | some z' =>
        simp only [select_from, hz'] at hr
        by_cases hle : z'.trip_deg ≤ temp
        · rw [if_pos hle] at hr
          subst hr
          simp [zone_le] at hgt
          omega
        · rw [if_neg hle] at hr
          exact ih hr j hjn hgt z hz
      | none =>
        simp only [select_from, hz'] at hr
        exact ih hr j hjn hgt z hz
    · have hjeq : j = n := by omega
      subst hjeq
      simp only [select_from, hz] at hr
      by_cases hle : z.trip_deg ≤ temp
      · rw [if_pos hle] at hr
        subst hr
        simp [zone_le] at hgt
      · omega

theorem select_from_complete {zones : List ThermalZone} {temp : Int} :
    ∀ {n i : Nat} {z : ThermalZone}, i < n → zones.get? i = some z →
      z.trip_deg ≤ temp → ∃ j, i ≤ j ∧ select_from zones temp n = some j := by
  intro n
  induction n with
  | zero => intro i z hi; omega
  | succ n ih =>
    intro i z hi hz hle
    rcases Nat.lt_or_ge i n with hin | hin
    · cases hz' : zones.get? n with
      | some z' =>
        by_cases hle' : z'.trip_deg ≤ temp
        · exact ⟨n, by omega, by simp only [select_from, hz', if_pos hle']⟩
        · simp only [select_from, hz', if_neg hle']
          exact ih hin hz hle
      | none =>
        simp only [select_from, hz']
        exact ih hin hz hle
    · have hieq : i = n := by omega
      subst hieq
      refine ⟨i, le_refl i, ?_⟩
      simp only [select_from, hz, if_pos hle]

theorem read_core_sum_eq_none_iff (coreReads : Nat → Option Int) :
    ∀ n, read_core_sum coreReads n = none ↔ ∃ i, i < n ∧ coreReads i = none := by
  intro n
  induction n with
  | zero => simp [read_core_sum]
  | succ n ih =>
    constructor
    · intro h
      cases hs : read_core_sum coreReads n with
      | none =>
        obtain ⟨i, hi, hnone⟩ := ih.1 hs
        exact ⟨i, by omega, hnone⟩
      | some s =>
        simp only [read_core_sum, hs] at h
        cases hc : coreReads n with
        | none => exact ⟨n, by omega, hc⟩
        | some v => rw [hc] at h; cases h
    · rintro ⟨i, hi, hnone⟩
      simp only [read_core_sum]
      rcases Nat.lt_or_ge i n with hin | hin
      · rw [ih.2 ⟨i, hin, hnone⟩]
      · have hieq : i = n := by omega
        subst hieq
        cases hs : read_core_sum coreReads i with
        | none => rfl
        | some s => rw [hnone]

theorem cb_adjust_eq (en : Bool) (cz : Option ThermalZone) (lp perf : Nat → Bool)
    (policy : CpufreqPolicy) :
    cpu_notifier_cb en cz lp perf CPUFREQ_ADJUST policy =
      (NOTIFY_OK, cb_apply policy (cb_cap en cz lp perf policy)) := by
  cases cz <;> cases en <;> rfl

theorem cb_apply_max (policy : CpufreqPolicy) (m : Nat) :
    (cb_apply policy m).max = m := by
  unfold cb_apply
  split <;> rfl

theorem cb_apply_min_le (policy : CpufreqPolicy) (m : Nat) :
    (cb_apply policy m).min ≤ (cb_apply policy m).max := by
  unfold cb_apply
  split
  · exact le_refl m
  · exact Nat.le_of_not_lt (by assumption)

/-- C1 counterexample: with the named zone "skin" configured,
`poll_jiffies = 100`, and a failing zone lookup, the tick does not
reschedule at all — refuting the claim that it reschedules at
`poll_period`. -/
theorem failed_read_reschedule_cex :
    (thermal_throttle_worker true 8 none (fun _ => none)
      ⟨some "skin", demoTable, none, 100, List.replicate 10 0, 0, true⟩).rescheduled ≠
      some 100 := by decide

/-- C1 (amended): for every tick in which the temperature source cannot
be read (the named zone fails to resolve, or any per-core zone in the
averaging path fails to resolve), the tick does not crash and skips the
sample entirely — state unchanged, nothing pushed, no classification,
no policy update — but it does NOT reschedule: the worker returns
without calling `queue_delayed_work`, so polling stops until the toggle
is written again. -/
theorem failed_read_skips_and_stops (nr_cpus : Nat) (namedRead : Option Int)
    (coreReads : Nat → Option Int) (t : ThermalDrv)
    (hfail : (t.zone_name.isSome = true ∧ namedRead = none) ∨
      (t.zone_name = none ∧ ∃ i, i < nr_cpus ∧ coreReads i = none)) :
    thermal_throttle_worker true nr_cpus namedRead coreReads t =
      ⟨t, none, false, false⟩ := by
  rcases hfail with ⟨hname, hread⟩ | ⟨hname, i, hi, hnone⟩
  · cases hz : t.zone_name with
    | none => rw [hz] at hname; cases hname
    | some nm =>
      subst hread
      simp [thermal_throttle_worker, hz]
  · have hsum : read_core_sum coreReads nr_cpus = none :=
      (read_core_sum_eq_none_iff coreReads nr_cpus).2 ⟨i, hi, hnone⟩
    simp [thermal_throttle_worker, hname, hsum]

theorem failed_read_skips_and_stops_witness :
    thermal_throttle_worker true 8 none (fun _ => none)
      ⟨some "skin", demoTable, some 1, 100, List.replicate 10 0, 3, true⟩ =
      ⟨⟨some "skin", demoTable, some 1, 100, List.replicate 10 0, 3, true⟩,
        none, false, false⟩ :=
  failed_read_skips_and_stops 8 none (fun _ => none)
    ⟨some "skin", demoTable, some 1, 100, List.replicate 10 0, 3, true⟩
    (Or.inl ⟨rfl, rfl⟩)

/-- C2 counterexample: from the disabled state with stored zone index 2
and `poll_jiffies = 100`, writing "1" neither clears `curr_zone` to
`none` nor schedules an immediate (zero-delay) tick — refuting the
claim that a toggle-on write clears the stored ActiveZone and
reschedules an immediate tick. -/
theorem toggle_on_cex :
    (throttle_enabled_store false
      ⟨some "skin", demoTable, some 2, 100, List.replicate 10 7, 4, false⟩
      (some 1) 2).drv.curr_zone ≠ none ∧
    (throttle_enabled_store false
      ⟨some "skin", demoTable, some 2, 100, List.replicate 10 7, 4, false⟩
      (some 1) 2).rescheduled ≠ some 0 := by decide

/-- C2 (amended): for every disabled state, a toggle-on write (any
nonzero parsed value) sets the enabled flag, resets the sampling window
(all slots zero, cursor 0, warm-up restarted from zero) and schedules
the next tick after `poll_period` (not immediately); the stored
ActiveZone (`curr_zone`) is left unchanged, not cleared. -/
theorem toggle_on_resets_window (t : ThermalDrv) (v : Int) (count : Nat)
    (hv : v ≠ 0) :
    throttle_enabled_store false t (some v) count =
      ⟨true, { t with temp_history := List.replicate WINDOW 0, temp_index := 0, wait := true },
        some t.poll_jiffies, (count : Int)⟩ ∧
    (throttle_enabled_store false t (some v) count).drv.curr_zone = t.curr_zone := by
  have hb : (v != 0) = true := by simpa using hv
  refine ⟨?_, ?_⟩ <;> simp [throttle_enabled_store, hb]

theorem toggle_on_resets_window_witness :
    throttle_enabled_store false
      ⟨some "skin", demoTable, some 2, 100, List.replicate 10 7, 4, false⟩
      (some 1) 2 =
      ⟨true, ⟨some "skin", demoTable, some 2, 100, List.replicate 10 0, 0, true⟩,
        some 100, 2⟩ :=
  ((toggle_on_resets_window
    ⟨some "skin", demoTable, some 2, 100, List.replicate 10 7, 4, false⟩
    1 2 (by decide)).1).trans (by decide)

/-- C9: a toggle write whose value is not a recognized integer encoding
(`kstrtoint` fails) returns `-EINVAL` and leaves everything unchanged:
the enabled flag, the sampling window, and the stored ActiveZone all
keep their prior values, and no tick is scheduled. -/
theorem store_invalid_leaves_state (en : Bool) (t : ThermalDrv) (count : Nat) :
    throttle_enabled_store en t none count = ⟨en, t, none, -EINVAL⟩ := rfl

/-- C10: the policy notifier returns `NOTIFY_OK` on every invocation,
and on any event other than `CPUFREQ_ADJUST` it leaves the policy
object entirely unchanged (neither `max` nor `min` is written). -/
theorem notifier_ok_and_non_adjust_noop (en : Bool) (cz : Option ThermalZone)
    (lp perf : Nat → Bool) (val : Nat) (policy : CpufreqPolicy) :
    (cpu_notifier_cb en cz lp perf val policy).1 = NOTIFY_OK ∧
    (val ≠ CPUFREQ_ADJUST → (cpu_notifier_cb en cz lp perf val policy).2 = policy) := by
  constructor
  · by_cases h : val = CPUFREQ_ADJUST <;> simp [cpu_notifier_cb, h]
  · intro h
    simp [cpu_notifier_cb, h]

theorem notifier_ok_and_non_adjust_noop_witness :
    (cpu_notifier_cb true (some ⟨1000, 700, 400, 40⟩) (fun _ => false) (fun _ => false) 1
      ⟨0, 5, 3, 9⟩).2 = ⟨0, 5, 3, 9⟩ :=
  (notifier_ok_and_non_adjust_noop true (some ⟨1000, 700, 400, 40⟩) (fun _ => false)
    (fun _ => false) 1 ⟨0, 5, 3, 9⟩).2 (by decide)

/-- C7: toggling off does not alter the stored ActiveZone — the disable
write returns with the driver state (including `curr_zone`) untouched
and schedules nothing — subsequent ticks while disabled are no-ops
(state unchanged, no reschedule, no classification, no policy update),
and while disabled the policy callback yields the unrestricted
user-configured maximum regardless of the stored zone, so the cap is
frozen at unrestricted immediately with no further tick needed. -/
theorem disable_preserves_zone_and_unrestricts (prev : Bool) (t : ThermalDrv)
    (count : Nat) (nr_cpus : Nat) (namedRead : Option Int)
    (coreReads : Nat → Option Int) (cz : Option ThermalZone)
    (lp perf : Nat → Bool) (policy : CpufreqPolicy) :
    throttle_enabled_store prev t (some 0) count = ⟨false, t, none, (count : Int)⟩ ∧
    thermal_throttle_worker false nr_cpus namedRead coreReads t =
      ⟨t, none, false, false⟩ ∧
    (cpu_notifier_cb false cz lp perf CPUFREQ_ADJUST policy).2.max =
      policy.user_max := by
  refine ⟨rfl, rfl, ?_⟩
  rw [cb_adjust_eq, cb_apply_max]
  cases cz <;> rfl

/-- C3: the zone selector returns `some i` exactly when entry `i`
qualifies (`trip_deg ≤ temp`) and every higher-indexed entry does not —
i.e. it is the highest qualifying index, as produced by the downward
scan — and `none` exactly when no entry qualifies; on the spec's
3-entry 40/55/70 table it selects index 0 at average 45, index 2 at
average 72, and no zone at average 10. -/
theorem select_zone_highest_qualifying :
    (∀ (zones : List ThermalZone) (temp : Int) (i : Nat),
      select_zone zones temp = some i ↔
        ((∃ z, zones.get? i = some z ∧ z.trip_deg ≤ temp) ∧
          ∀ j z, i < j → zones.get? j = some z → temp < z.trip_deg)) ∧
    (∀ (zones : List ThermalZone) (temp : Int),
      select_zone zones temp = none ↔
        ∀ j z, zones.get? j = some z → temp < z.trip_deg) ∧
    select_zone demoTable 45 = some 0 ∧ select_zone demoTable 72 = some 2 ∧
    select_zone demoTable 10 = none := by
  refine ⟨?_, ?_, by decide, by decide, by decide⟩
  · intro zones temp i
    constructor
    · intro h
      obtain ⟨hlt, z, hz, hle⟩ := select_from_some h
      refine ⟨⟨z, hz, hle⟩, ?_⟩
      intro j z' hij hj
      obtain ⟨hjlen, -⟩ := List.get?_eq_some.1 hj
      refine select_from_above h j hjlen ?_ z' hj
      simp only [zone_le, decide_eq_false_iff_not]
      omega
    · rintro ⟨⟨z, hz, hle⟩, habove⟩
      obtain ⟨hilen, -⟩ := List.get?_eq_some.1 hz
      obtain ⟨j, hij, hsel⟩ := select_from_complete hilen hz hle
      rcases Nat.lt_or_ge i j with hlt | hge
      · obtain ⟨-, z', hz', hle'⟩ := select_from_some hsel
        exact absurd hle' (not_le.2 (habove j z' hlt hz'))
      · have hieq : j = i := by omega
        rw [← hieq]
        exact hsel
  · intro zones temp
    constructor
    · intro h j z hj
      obtain ⟨hjlen, -⟩ := List.get?_eq_some.1 hj
      exact select_from_above h j hjlen rfl z hj
    · intro hall
      cases hsel : select_zone zones temp with
      | none => rfl
      | some i =>
        obtain ⟨-, z, hz, hle⟩ := select_from_some hsel
        exact absurd hle (not_le.2 (hall i z hz))

theorem select_from_mono {zones : List ThermalZone} {t1 t2 : Int} (h12 : t1 ≤ t2) :
    ∀ n, zone_le (select_from zones t1 n) (select_from zones t2 n) = true := by
  intro n
  induction n with
  | zero => rfl
  | succ n ih =>
    cases hz : zones.get? n with
    | some z =>
      simp only [select_from, hz]
      by_cases h2 : z.trip_deg ≤ t2
      · rw [if_pos h2]
        by_cases h1 : z.trip_deg ≤ t1
        · rw [if_pos h1]
          simp [zone_le]
        · rw [if_neg h1]
          cases hs : select_from zones t1 n with
          | none => rfl
          | some i =>
            have hlt := (select_from_some hs).1
            simp only [zone_le, decide_eq_true_eq]
            omega
      · have h1 : ¬z.trip_deg ≤ t1 := by omega
        rw [if_neg h2, if_neg h1]
        exact ih
    | none =>
      simp only [select_from, hz]
      exact ih

/-- C8: for a fixed zone table the selector is monotone in temperature:
whenever `t1 ≤ t2`, the zone selected for `t1` is at most the zone
selected for `t2`, comparing by index with "none" treated as lowest. -/
theorem select_zone_monotone (zones : List ThermalZone) (t1 t2 : Int)
    (h : t1 ≤ t2) :
    zone_le (select_zone zones t1) (select_zone zones t2) = true :=
  select_from_mono h zones.length

theorem select_zone_monotone_witness :
    zone_le (select_zone demoTable 45) (select_zone demoTable 72) = true :=
  select_zone_monotone demoTable 45 72 (by decide)

/-- C6: on every `CPUFREQ_ADJUST` invocation of the policy callback, if
the stored zone is "none" or throttling is disabled the policy max is
set to the cluster's unrestricted user-configured ceiling; otherwise it
is set to the active zone's per-cluster cap (silver for the low-power
cluster, gold for the performance cluster, prime otherwise); and
afterwards the policy minimum never exceeds the policy maximum (the
minimum is lowered to match when needed). -/
theorem notifier_adjust_sets_cap (en : Bool) (cz : Option ThermalZone)
    (lp perf : Nat → Bool) (policy : CpufreqPolicy) :
    ((cz = none ∨ en = false) →
      (cpu_notifier_cb en cz lp perf CPUFREQ_ADJUST policy).2.max =
        policy.user_max) ∧
    (∀ z, cz = some z → en = true →
      (cpu_notifier_cb en cz lp perf CPUFREQ_ADJUST policy).2.max =
        (if lp policy.cpu then z.silver_khz
         else if perf policy.cpu then z.gold_khz else z.prime_khz)) ∧
    (cpu_notifier_cb en cz lp perf CPUFREQ_ADJUST policy).2.min ≤
      (cpu_notifier_cb en cz lp perf CPUFREQ_ADJUST policy).2.max := by
  rw [cb_adjust_eq]
  refine ⟨?_, ?_, cb_apply_min_le policy (cb_cap en cz lp perf policy)⟩
  · rintro (hcz | hen)
    · subst hcz
      rw [cb_apply_max]
      rfl
    · subst hen
      rw [cb_apply_max]
      cases cz <;> rfl
  · rintro z rfl rfl
    rw [cb_apply_max]
    rfl

theorem notifier_adjust_sets_cap_witness :
    (cpu_notifier_cb true (some ⟨700, 400, 1100, 55⟩) (fun c => c = 0)
      (fun c => c = 4) CPUFREQ_ADJUST ⟨4, 2000, 1500, 2000⟩).2.max =
      (if (4 : Nat) = 0 then 1100 else if (4 : Nat) = 4 then 700 else 400) :=
  (notifier_adjust_sets_cap true (some ⟨700, 400, 1100, 55⟩) (fun c => c = 0)
    (fun c => c = 4) ⟨4, 2000, 1500, 2000⟩).2.1 ⟨700, 400, 1100, 55⟩ rfl rfl

theorem select_zone_highest_qualifying_witness :
    select_zone demoTable 45 = some 0 :=
  select_zone_highest_qualifying.2.2.1

theorem slotVal_concat (ss : List Int) (a : Int) (i : Nat) (hi : i < 10) :
    slotVal (ss ++ [a]) i = if i = ss.length % 10 then a else slotVal ss i := by
  by_cases heq : i = ss.length % 10
  · subst heq
    rw [if_pos rfl]
    unfold slotVal
    have hlt : ss.length % 10 < ss.length + 1 := by omega
    rw [List.length_append, List.length_singleton, if_pos (by omega)]
    have hidx : ss.length % 10 + 10 * ((ss.length + 1 - 1 - ss.length % 10) / 10) =
        ss.length := by omega
    rw [hidx, List.getD_eq_get?, List.get?_concat_length]
    rfl
  · rw [if_neg heq]
    unfold slotVal
    rcases Nat.lt_or_ge i ss.length with hin | hin
    · rw [List.length_append, List.length_singleton, if_pos (by omega), if_pos hin]
      have hdiv : (ss.length + 1 - 1 - i) / 10 = (ss.length - 1 - i) / 10 := by omega
      rw [hdiv]
      have hbound : i + 10 * ((ss.length - 1 - i) / 10) < ss.length := by omega
      rw [List.getD_append _ _ _ _ hbound]
    · have hgt : ss.length < i := by omega
      rw [List.length_append, List.length_singleton, if_neg (by omega), if_neg (by omega)]

theorem histList_nil : histList [] = List.replicate 10 0 := by decide

theorem histList_length (ss : List Int) : (histList ss).length = 10 := by
  simp [histList]

theorem histList_getD (ss : List Int) (i : Nat) (hi : i < 10) :
    (histList ss).getD i 0 = slotVal ss i := by
  rw [List.getD_eq_getElem]
  · simp [histList]
  · rw [histList_length]
    exact hi

theorem histList_concat (ss : List Int) (a : Int) :
    histList (ss ++ [a]) = (histList ss).set (ss.length % 10) a := by
  apply List.ext_getElem
  · simp [histList]
  · intro i h1 h2
    have hi : i < 10 := by
      have := histList_length (ss ++ [a])
      omega
    have hmap : ∀ (ts : List Int) (h : i < (histList ts).length),
        (histList ts)[i] = slotVal ts i := by
      intro ts h
      simp [histList]
    rw [hmap (ss ++ [a]) h1, List.getElem_set, slotVal_concat ss a i hi]
    by_cases heq : ss.length % 10 = i
    · rw [if_pos heq, if_pos heq.symm]
    · rw [if_neg heq, if_neg (fun hc => heq hc.symm)]
      have h3 : i < (histList ss).length := by rw [histList_length]; exact hi
      rw [hmap ss h3]

theorem window_push_all_concat (vs : List Int) (a : Int) :
    ∀ (hist : List Int) (idx : Nat),
      window_push_all hist idx (vs ++ [a]) =
        ((window_push_all hist idx vs).1.set (window_push_all hist idx vs).2 a,
          ((window_push_all hist idx vs).2 + 1) % WINDOW) := by
  induction vs with
  | nil => intro hist idx; rfl
  | cons v vs ih =>
    intro hist idx
    simp only [List.cons_append, window_push_all]
    exact ih _ _

theorem window_push_all_spec (ss : List Int) :
    window_push_all (List.replicate 10 0) 0 ss = (histList ss, ss.length % 10) := by
  induction ss using List.reverseRecOn with
  | nil => rw [histList_nil]; rfl
  | append_singleton ss a ih =>
    rw [window_push_all_concat, ih]
    simp only
    rw [histList_concat]
    have hlen : (ss ++ [a]).length = ss.length + 1 := by simp
    rw [hlen]
    have hmod : (ss.length % 10 + 1) % WINDOW = (ss.length + 1) % 10 := by
      show (ss.length % 10 + 1) % 10 = (ss.length + 1) % 10
      omega
    rw [hmod]

theorem slotVal_mod (ss : List Int) :
    slotVal ss (ss.length % 10) =
      if ss.length < 10 then 0 else ss.getD (ss.length - 10) 0 := by
  unfold slotVal
  by_cases h : ss.length < 10
  · rw [if_pos h, if_neg (by omega)]
  · rw [if_neg h, if_pos (by omega)]
    have hidx : ss.length % 10 + 10 * ((ss.length - 1 - ss.length % 10) / 10) =
        ss.length - 10 := by omega
    rw [hidx]

theorem sum_set_int : ∀ (l : List Int) (i : Nat) (a : Int), i < l.length →
    (l.set i a).sum = l.sum - l.getD i 0 + a := by
  intro l
  induction l with
  | nil => intro i a h; simp at h
  | cons x xs ih =>
    intro i a h
    cases i with
    | zero =>
      simp only [List.set, List.sum_cons, List.getD_cons_zero]
      ring
    | succ j =>
      simp only [List.set, List.sum_cons, List.getD_cons_succ]
      rw [ih j a (by simpa using h)]
      ring

theorem spec_window_sum (ss : List Int) :
    (spec_window ss).sum =
      if ss.length < 10 then ss.sum else (ss.drop (ss.length - 10)).sum := by
  unfold spec_window
  by_cases h : ss.length < 10
  · rw [if_pos (show ss.length ≤ WINDOW by show ss.length ≤ 10; omega), if_pos h]
    simp [List.sum_append, List.sum_replicate]
  · rw [if_neg h]
    by_cases h10 : ss.length ≤ WINDOW
    · have hlen : ss.length = 10 := by
        have h10' : ss.length ≤ 10 := h10
        omega
      rw [if_pos h10, hlen]
      simp [List.sum_append]
    · rw [if_neg h10]
      rfl

theorem histList_sum (ss : List Int) : (histList ss).sum = (spec_window ss).sum := by
  induction ss using List.reverseRecOn with
  | nil =>
    rw [histList_nil, spec_window_sum]
    simp [List.sum_replicate]
  | append_singleton ss a ih =>
    rw [histList_concat, sum_set_int _ _ _ (by rw [histList_length]; omega),
      histList_getD _ _ (by omega), slotVal_mod, ih, spec_window_sum,
      spec_window_sum]
    have hlen : (ss ++ [a]).length = ss.length + 1 := by simp
    rw [hlen]
    by_cases h : ss.length < 10
    · rw [if_pos h, if_pos h]
      by_cases h9 : ss.length + 1 < 10
      · rw [if_pos h9]
        simp [List.sum_append]
      · rw [if_neg h9]
        have hdrop : ss.length + 1 - 10 = 0 := by omega
        rw [hdrop, List.drop_zero]
        simp [List.sum_append]
    · rw [if_neg h, if_neg h, if_neg (by omega)]
      have h1 : ss.length + 1 - 10 = ss.length - 9 := by omega
      have h2 : ss.length - 9 ≤ ss.length := by omega
      rw [h1, List.drop_append_of_le_length h2]
      have h3 : ss.length - 10 < ss.length := by omega
      rw [List.drop_eq_getElem_cons h3, List.getD_eq_getElem _ _ h3]
      have h4 : ss.length - 10 + 1 = ss.length - 9 := by omega
      rw [h4]
      simp [List.sum_append]

/-- C4: for every sequence of pushed samples starting from the reset
window, the computed average (`temp_sum / WINDOW` over all ten slots,
lines 131-135) equals the truncating integer mean of the last `WINDOW`
effective values, zero-padded while fewer than `WINDOW` samples have
been pushed — slots never written count as the initial zero fill. -/
theorem window_average_matches_spec (ss : List Int) :
    window_average (window_push_all (List.replicate WINDOW 0) 0 ss).1 =
      spec_average ss := by
  have h10 : (List.replicate WINDOW 0 : List Int) = List.replicate 10 0 := rfl
  rw [h10, window_push_all_spec]
  show window_average (histList ss) = spec_average ss
  unfold window_average spec_average
  rw [← List.sum_eq_foldl, histList_sum]

theorem tick_named_warming (v : Int) (t : ThermalDrv) (nm : String)
    (hnm : t.zone_name = some nm) (hw : t.wait = true)
    (hne : (t.temp_index + 1) % WINDOW ≠ 0) :
    tick_named v t =
      ⟨{ t with temp_history := t.temp_history.set t.temp_index v,
                temp_index := (t.temp_index + 1) % WINDOW },
        some t.poll_jiffies, false, false⟩ := by
  have hb : ((t.temp_index + 1) % WINDOW != 0) = true := by simpa using hne
  simp [tick_named, thermal_throttle_worker, hnm, window_push, hw, hb]

theorem tick_named_classify (v : Int) (t : ThermalDrv) (nm : String)
    (hnm : t.zone_name = some nm) (h0 : (t.temp_index + 1) % WINDOW = 0) :
    (tick_named v t).classified = true ∧
    (tick_named v t).state.wait = false ∧
    (tick_named v t).rescheduled = some t.poll_jiffies ∧
    (tick_named v t).state.temp_history = t.temp_history.set t.temp_index v ∧
    (tick_named v t).state.curr_zone =
      select_zone t.zones (window_average (t.temp_history.set t.temp_index v)) := by
  have hb : ((t.temp_index + 1) % WINDOW != 0) = false := by simp [h0]
  by_cases hsel :
      select_zone t.zones (window_average (t.temp_history.set t.temp_index v)) =
        t.curr_zone
  · simp [tick_named, thermal_throttle_worker, hnm, window_push, hb, h0, hsel]
  · simp [tick_named, thermal_throttle_worker, hnm, window_push, hb, h0, hsel]

theorem run_ticks_warming (nm : String) :
    ∀ (vs : List Int) (t : ThermalDrv), t.zone_name = some nm → t.wait = true →
      t.temp_index + vs.length < 10 →
      run_ticks t vs = { t with
        temp_history := (window_push_all t.temp_history t.temp_index vs).1,
        temp_index := t.temp_index + vs.length } := by
  intro vs
  induction vs with
  | nil =>
    intro t h1 h2 h3
    show t = _
    simp [window_push_all]
  | cons v vs ih =>
    intro t h1 h2 h3
    have hne : (t.temp_index + 1) % WINDOW ≠ 0 := by
      show (t.temp_index + 1) % 10 ≠ 0
      simp only [List.length_cons] at h3
      omega
    have hmod : (t.temp_index + 1) % WINDOW = t.temp_index + 1 := by
      show (t.temp_index + 1) % 10 = t.temp_index + 1
      simp only [List.length_cons] at h3
      omega
    show run_ticks (tick_named v t).state vs = _
    rw [tick_named_warming v t nm h1 h2 hne]
    simp only [hmod]
    rw [ih { t with temp_history := t.temp_history.set t.temp_index v,
                    temp_index := t.temp_index + 1 } h1 h2
      (by show t.temp_index + 1 + vs.length < 10
          simp only [List.length_cons] at h3
          omega)]
    simp only [window_push_all, window_push, hmod]
    congr 1
    simp only [List.length_cons]
    omega

theorem histList_of_length_eq (ss : List Int) (h : ss.length = 10) :
    histList ss = ss := by
  apply List.ext_getElem
  · rw [histList_length, h]
  · intro i h1 h2
    have hi : i < 10 := by rw [histList_length] at h1; exact h1
    simp only [histList, List.getElem_map, List.getElem_range]
    unfold slotVal
    rw [if_pos (by omega)]
    have hidx : i + 10 * ((ss.length - 1 - i) / 10) = i := by
      rw [h]
      omega
    rw [hidx, List.getD_eq_getElem _ _ (by omega)]

/-- C5: starting from a freshly reset window, warm-up completes after
exactly `WINDOW` successful samples: on every earlier tick the
controller is still warming up (classification does not run, `wait`
stays set, the stored zone is untouched, and the tick only pushes and
reschedules at `poll_period`), and on the tick whose push fills the
window, classification runs in that same tick — `wait` clears and the
stored zone becomes the selected zone for the average of the ten
samples. -/
theorem warmup_exactly_window (t : ThermalDrv) (nm : String) (vs : List Int)
    (hz : t.zone_name = some nm) (hw : t.wait = true) (hidx : t.temp_index = 0)
    (hhist : t.temp_history = List.replicate WINDOW 0)
    (hlen : vs.length = WINDOW) :
    (∀ k, k + 1 < WINDOW →
      (tick_named (vs.getD k 0) (run_ticks t (vs.take k))).classified = false ∧
      (tick_named (vs.getD k 0) (run_ticks t (vs.take k))).state.wait = true ∧
      (tick_named (vs.getD k 0) (run_ticks t (vs.take k))).state.curr_zone =
        t.curr_zone ∧
      (tick_named (vs.getD k 0) (run_ticks t (vs.take k))).rescheduled =
        some t.poll_jiffies) ∧
    (tick_named (vs.getD (WINDOW - 1) 0)
      (run_ticks t (vs.take (WINDOW - 1)))).classified = true ∧
    (tick_named (vs.getD (WINDOW - 1) 0)
      (run_ticks t (vs.take (WINDOW - 1)))).state.wait = false ∧
    (tick_named (vs.getD (WINDOW - 1) 0)
      (run_ticks t (vs.take (WINDOW - 1)))).state.curr_zone =
      select_zone t.zones (window_average vs) := by
  have hlen10 : vs.length = 10 := hlen
  have hrun : ∀ k, k < 10 → run_ticks t (vs.take k) =
      { t with temp_history := (window_push_all t.temp_history 0 (vs.take k)).1,
               temp_index := k } := by
    intro k hk
    have htk : (vs.take k).length = k := by
      rw [List.length_take]
      omega
    have h := run_ticks_warming nm (vs.take k) t hz hw (by rw [htk, hidx]; omega)
    rw [h, htk, hidx]
    simp
  refine ⟨?_, ?_⟩
  · intro k hk
    have hk' : k + 1 < 10 := hk
    rw [hrun k (by omega)]
    rw [tick_named_warming (vs.getD k 0)
      { t with temp_history := (window_push_all t.temp_history 0 (vs.take k)).1,
               temp_index := k } nm hz hw
      (by show (k + 1) % 10 ≠ 0; omega)]
    exact ⟨rfl, hw, rfl, rfl⟩
  · have h9 : WINDOW - 1 = 9 := rfl
    rw [h9, hrun 9 (by omega)]
    obtain ⟨hc, hwf, hrs, hh, hcz⟩ := tick_named_classify (vs.getD 9 0)
      { t with temp_history := (window_push_all t.temp_history 0 (vs.take 9)).1,
               temp_index := 9 } nm hz (by show (9 + 1) % 10 = 0; rfl)
    refine ⟨hc, hwf, ?_⟩
    rw [hcz]
    show select_zone t.zones
        (window_average
          ((window_push_all t.temp_history 0 (vs.take 9)).1.set 9 (vs.getD 9 0))) =
      select_zone t.zones (window_average vs)
    have harg : (window_push_all t.temp_history 0 (vs.take 9)).1.set 9
        (vs.getD 9 0) = vs := by
      rw [hhist]
      show (window_push_all (List.replicate 10 0) 0 (vs.take 9)).1.set 9
          (vs.getD 9 0) = vs
      rw [window_push_all_spec]
      show (histList (vs.take 9)).set 9 (vs.getD 9 0) = vs
      have htk : (vs.take 9).length = 9 := by
        rw [List.length_take]
        omega
      have hset : (histList (vs.take 9)).set 9 (vs.getD 9 0) =
          histList (vs.take 9 ++ [vs.getD 9 0]) := by
        rw [histList_concat, htk]
      rw [hset]
      have hconcat : vs.take 9 ++ [vs.getD 9 0] = vs := by
        rw [List.getD_eq_getElem _ _ (by omega)]
        conv_rhs => rw [show vs = vs.take 10 from by rw [← hlen10, List.take_length],
          show vs.take 10 = vs.take (9 + 1) from rfl, List.take_succ]
        rw [List.getElem?_eq_getElem (by omega)]
        rfl
      rw [hconcat, histList_of_length_eq vs hlen10]
    rw [harg]

theorem warmup_exactly_window_witness :
    (tick_named (([45, 46, 44, 45, 45, 50, 51, 52, 53, 54] : List Int).getD
        (WINDOW - 1) 0)
      (run_ticks ⟨some "skin", demoTable, none, 100, List.replicate WINDOW 0, 0, true⟩
        (([45, 46, 44, 45, 45, 50, 51, 52, 53, 54] : List Int).take
          (WINDOW - 1)))).classified = true :=
  (warmup_exactly_window
    ⟨some "skin", demoTable, none, 100, List.replicate WINDOW 0, 0, true⟩ "skin"
    [45, 46, 44, 45, 45, 50, 51, 52, 53, 54] rfl rfl rfl rfl rfl).2.1
